import Mathlib

/-
Verification of the natural-language specification of the
andy-inference-models repository against a shallow embedding of its two
Python components:

  * src/tokenizer-service/app.py       (serving layer)
  * src/scripts/download_missing_models.py  (provisioning orchestrator)

External collaborators (the HuggingFace tokenizer library, the conversion
subprocess, the filesystem) are modelled as explicit parameters: a tokenizer
is a function from text and maximum length to an optional pair of token-id
and attention-mask lists (none models a raised exception), the converter is
a function from a model configuration and a filesystem to a success flag and
a new filesystem, and a filesystem is the list of existing file paths.
-/

namespace AndyInference

/- ===================== Serving layer: tokenizer-service/app.py ============ -/

/-- Abstract tokenizer handle (the HuggingFace AutoTokenizer black box):
text and max length to an optional (input_ids, attention_mask) pair;
none models a raised exception inside the tokenizer call. -/
abbrev Tok := String → Nat → Option (List Int × List Int)

/-- Body of POST /tokenize (class TokenizeRequest). The source defaults are
max_length 512 and model "deberta-v3-base-prompt-injection-v2". -/
structure TokenizeRequest where
  text : String
  max_length : Nat
  model : String

/-- Body of a 200 response (class TokenizeResponse). -/
structure TokenizeResponse where
  input_ids : List Int
  attention_mask : List Int
  token_count : Int
  model : String
  deriving DecidableEq, Repr

/-- The HTTPException raises of the tokenize handler, with the data their
detail strings carry: the 400 detail lists the loaded identifiers, the 503
detail names the uninitialized model, the 500 wraps any other exception. -/
inductive HTTPError where
  | badRequest (available : List String)
  | unavailable (model : String)
  | internal
  deriving DecidableEq, Repr

/-- HTTP status code of each raised error. -/
def HTTPError.status : HTTPError → Nat
  | .badRequest _ => 400
  | .unavailable _ => 503
  | .internal => 500

/-- One entry of SUPPORTED_MODELS: huggingface path and local path. -/
structure SupportedModel where
  hf_path : String
  local_path : String
  deriving DecidableEq, Repr

/-- The SUPPORTED_MODELS mapping of app.py. -/
def SUPPORTED_MODELS : List (String × SupportedModel) :=
  [ ("deberta-v3-base-prompt-injection-v2",
      ⟨"protectai/deberta-v3-base-prompt-injection-v2",
       "/app/models/deberta-v3-base-prompt-injection-v2"⟩),
    ("graphcodebert-solidity-vulnerability",
      ⟨"angusleung100/GraphCodeBERT-Base-Solidity-Vulnerability",
       "/app/models/graphcodebert-solidity-vulnerability"⟩) ]

/-- get_tokenizer_path of app.py for one SUPPORTED_MODELS entry, over an
abstract os.path.exists predicate: the local path is used when it exists and
holds tokenizer.json or vocab.json, otherwise the huggingface path. -/
def get_tokenizer_path (fsx : String → Bool) (mc : SupportedModel) : String :=
  if fsx mc.local_path &&
      (fsx (mc.local_path ++ "/tokenizer.json") || fsx (mc.local_path ++ "/vocab.json"))
  then mc.local_path
  else mc.hf_path

/-- The per-model body of the lifespan startup loop: AutoTokenizer.from_pretrained
is the abstract loader (none models a raised exception). A failed load from
the local path is retried once against the huggingface path; a failure of
that retry, or of a direct huggingface load, re-raises (error). -/
def load_one (fsx : String → Bool) (load : String → Option Tok)
    (mc : SupportedModel) : Except Unit Tok :=
  match load (get_tokenizer_path fsx mc) with
  | some t => .ok t
  | none =>
      if get_tokenizer_path fsx mc = mc.local_path then
        match load mc.hf_path with
        | some t => .ok t
        | none => .error ()
      else .error ()

/-- The lifespan startup loop over a list of supported models: a raise from
any model's load aborts the whole startup. -/
def lifespan_load (fsx : String → Bool) (load : String → Option Tok) :
    List (String × SupportedModel) → Except Unit (List (String × Tok))
  | [] => .ok []
  | (mid, mc) :: rest =>
      match load_one fsx load mc with
      | .error _ => .error ()
      | .ok t =>
          match lifespan_load fsx load rest with
          | .error _ => .error ()
          | .ok r => .ok ((mid, t) :: r)

/-- The tokenize handler of app.py over the global tokenizers dict, modelled
as an association list whose values mirror the dict values (an Option, since
the handler guards against a None entry before use). -/
def tokenize (tokenizers : List (String × Option Tok)) (request : TokenizeRequest) :
    Except HTTPError TokenizeResponse :=
  match List.lookup request.model tokenizers with
  | none => .error (.badRequest (tokenizers.map Prod.fst))
  | some none => .error (.unavailable request.model)
  | some (some tokenizer) =>
      match tokenizer request.text request.max_length with
      | none => .error .internal
      | some (input_ids, attention_mask) =>
          .ok ⟨input_ids, attention_mask, attention_mask.sum, request.model⟩

/-- Helper: a key absent from the keys of an association list has no lookup. -/
theorem lookup_none_of_not_mem_keys {β : Type} (m : String)
    (l : List (String × β)) (h : m ∉ l.map Prod.fst) : List.lookup m l = none := by
  induction l with
  | nil => rfl
  | cons p rest ih =>
      have h1 : ¬ m = p.1 := fun he => h (by simp [he])
      have h2 : m ∉ rest.map Prod.fst := fun hm => h (by simp [hm])
      have hb : (m == p.1) = false := beq_eq_false_iff_ne.mpr h1
      simp [List.lookup, hb, ih h2]

/-- Claim C1 (amended): while the service has no tokenizers loaded, the
tokenize handler returns a 400 whose available-model list is empty; the 503
is produced only for a model id that is present in the map but bound to an
uninitialized (None) tokenizer. -/
theorem tokenize_empty_registry_returns_badRequest (request : TokenizeRequest) :
    (tokenize [] request = .error (.badRequest []) ∧
      (HTTPError.badRequest []).status = 400) ∧
    (∀ tokenizers : List (String × Option Tok),
      List.lookup request.model tokenizers = some none →
      tokenize tokenizers request = .error (.unavailable request.model) ∧
      (HTTPError.unavailable request.model).status = 503) := by
  refine ⟨⟨rfl, rfl⟩, ?_⟩
  intro tokenizers h
  refine ⟨?_, rfl⟩
  unfold tokenize
  rw [h]

/-- Claim C1, witness: a concrete empty-state request and a concrete
None-bound entry, via the amended theorem. -/
theorem tokenize_empty_registry_witness :
    tokenize [] ⟨"hello", 512, "deberta-v3-base-prompt-injection-v2"⟩
      = .error (.badRequest []) ∧
    tokenize [("m1", (none : Option Tok))] ⟨"hello", 512, "m1"⟩
      = .error (.unavailable "m1") := by
  have h1 := tokenize_empty_registry_returns_badRequest
    ⟨"hello", 512, "deberta-v3-base-prompt-injection-v2"⟩
  have h2 := (tokenize_empty_registry_returns_badRequest ⟨"hello", 512, "m1"⟩).2
    [("m1", (none : Option Tok))] (by simp [List.lookup])
  exact ⟨h1.1.1, h2.1⟩

/-- Claim C1, counterexample to the claim as stated: with no tokenizers
loaded, a tokenize request is answered with status 400, not 503. -/
theorem tokenize_empty_registry_not_503 :
    tokenize [] ⟨"hello", 512, "deberta-v3-base-prompt-injection-v2"⟩
      = .error (.badRequest []) ∧
    (HTTPError.badRequest []).status = 400 ∧
    ¬ (HTTPError.badRequest []).status = 503 := by
  exact ⟨rfl, rfl, by decide⟩

/-- Claim C7: a tokenize request for a model id not among the loaded
identifiers is answered with a 400 whose detail carries exactly the list of
loaded identifiers; and for a loaded id the handler's result is determined
solely by the binding of that id (the behaviour is the same as if that
binding were the only one), so no other model's tokenizer is ever invoked
and no silent default fallback occurs. -/
theorem unknown_model_400_and_routing
    (tokenizers : List (String × Option Tok)) (request : TokenizeRequest) :
    (request.model ∉ tokenizers.map Prod.fst →
      tokenize tokenizers request = .error (.badRequest (tokenizers.map Prod.fst)) ∧
      (HTTPError.badRequest (tokenizers.map Prod.fst)).status = 400) ∧
    (∀ v : Option Tok, List.lookup request.model tokenizers = some v →
      tokenize tokenizers request = tokenize [(request.model, v)] request) := by
  constructor
  · intro hnm
    refine ⟨?_, rfl⟩
    unfold tokenize
    rw [lookup_none_of_not_mem_keys request.model tokenizers hnm]
  · intro v hv
    have hr : List.lookup request.model [(request.model, v)] = some v := by
      simp [List.lookup]
    unfold tokenize
    rw [hv, hr]
    cases v with
    | none => rfl
    | some t => rfl

/-- Claim C7, witness: with m1 and m2 loaded, the unknown id m3 yields a 400
listing exactly m1 and m2, via the theorem at a concrete state. -/
theorem unknown_model_400_witness :
    tokenize [("m1", (none : Option Tok)), ("m2", (none : Option Tok))]
        ⟨"hi", 16, "m3"⟩
      = .error (.badRequest ["m1", "m2"]) := by
  have h := (unknown_model_400_and_routing
    [("m1", (none : Option Tok)), ("m2", (none : Option Tok))]
    ⟨"hi", 16, "m3"⟩).1 (by decide)
  exact h.1

/-- Fixed-length contract of the external tokenizer when the handler calls it
with padding to max_length and truncation: both output lists have exactly the
requested length. -/
def FixedLenTok (t : Tok) : Prop :=
  ∀ text n ids mask, t text n = some (ids, mask) → ids.length = n ∧ mask.length = n

/-- Claim C8: every successful tokenize response has input_ids and
attention_mask of length exactly max_length (granting the external
tokenizer's fixed-length padding contract), and its token_count is the sum
of the attention mask, not the raw text length. -/
theorem fixed_length_token_count_contract
    (tokenizers : List (String × Option Tok)) (request : TokenizeRequest)
    (response : TokenizeResponse)
    (hcontract : ∀ t, List.lookup request.model tokenizers = some (some t) →
      FixedLenTok t)
    (hok : tokenize tokenizers request = .ok response) :
    response.input_ids.length = request.max_length ∧
    response.attention_mask.length = request.max_length ∧
    response.token_count = response.attention_mask.sum := by
  unfold tokenize at hok
  split at hok
  · exact absurd hok (by simp)
  · exact absurd hok (by simp)
  rename_i t heq
  split at hok
  · exact absurd hok (by simp)
  rename_i ids mask hc
  have hresp : response = ⟨ids, mask, mask.sum, request.model⟩ :=
    (Except.ok.inj hok).symm
  have hlen := hcontract t heq request.text request.max_length ids mask hc
  subst hresp
  exact ⟨hlen.1, hlen.2, rfl⟩

/-- A concrete tokenizer obeying the fixed-length contract, for witnesses. -/
def tokensW : Tok := fun _ n => some (List.replicate n 0, List.replicate n 1)

/-- The concrete response tokensW produces for max_length 16. -/
def respW : TokenizeResponse :=
  ⟨List.replicate 16 0, List.replicate 16 1, (List.replicate 16 (1 : Int)).sum, "m1"⟩

/-- Claim C8, witness: a concrete successful response at max_length 16 has
both lists of length 16 and token_count equal to the mask sum, via the
theorem with its contract hypotheses discharged concretely. -/
theorem fixed_length_contract_witness :
    respW.input_ids.length = 16 ∧ respW.attention_mask.length = 16 ∧
    respW.token_count = respW.attention_mask.sum := by
  have h := fixed_length_token_count_contract [("m1", some tokensW)]
    ⟨"hello world", 16, "m1"⟩ respW
    (by
      intro t ht
      have ht2 : tokensW = t := by simpa [List.lookup] using ht
      intro text n ids mask hcall
      rw [← ht2] at hcall
      have hp : (List.replicate n (0 : Int), List.replicate n (1 : Int)) = (ids, mask) :=
        Option.some.inj hcall
      have h1 : List.replicate n (0 : Int) = ids := congrArg Prod.fst hp
      have h2 : List.replicate n (1 : Int) = mask := congrArg Prod.snd hp
      rw [← h1, ← h2]
      simp)
    rfl
  exact h

/-- Helper: if one supported model's load fails fatally, the whole startup
loop fails, wherever that model sits in the list. -/
theorem lifespan_error_of_member (fsx : String → Bool) (load : String → Option Tok)
    (l : List (String × SupportedModel)) (mid : String) (mc : SupportedModel)
    (hm : (mid, mc) ∈ l) (hf : load_one fsx load mc = .error ()) :
    lifespan_load fsx load l = .error () := by
  induction l with
  | nil => cases hm
  | cons p rest ih =>
      cases p with
      | mk pid pc =>
          cases hm with
          | head => simp [lifespan_load, hf]
          | tail _ hm2 =>
              unfold lifespan_load
              cases h1 : load_one fsx load pc with
              | error e => rfl
              | ok t => rw [ih hm2]

/-- Claim C4: the load source is resolved local-first (local path iff it
holds a recognized tokenizer artifact, granting that a file's presence
implies its directory's presence and that the two source references
differ); a resolved source that loads is used as is; a failed local load is
retried exactly once against the huggingface reference; a failure of that
retry, or of a direct huggingface load, raises; and any model raising makes
the whole startup loop fail. -/
theorem local_first_resolution_and_fallback
    (fsx : String → Bool) (load : String → Option Tok) (mc : SupportedModel)
    (hwf1 : fsx (mc.local_path ++ "/tokenizer.json") = true → fsx mc.local_path = true)
    (hwf2 : fsx (mc.local_path ++ "/vocab.json") = true → fsx mc.local_path = true)
    (hne : mc.local_path ≠ mc.hf_path) :
    (get_tokenizer_path fsx mc = mc.local_path ↔
      (fsx (mc.local_path ++ "/tokenizer.json") = true ∨
        fsx (mc.local_path ++ "/vocab.json") = true)) ∧
    (∀ t, load (get_tokenizer_path fsx mc) = some t →
      load_one fsx load mc = .ok t) ∧
    (get_tokenizer_path fsx mc = mc.local_path → load mc.local_path = none →
      ∀ t, load mc.hf_path = some t → load_one fsx load mc = .ok t) ∧
    (get_tokenizer_path fsx mc = mc.local_path → load mc.local_path = none →
      load mc.hf_path = none → load_one fsx load mc = .error ()) ∧
    (get_tokenizer_path fsx mc = mc.hf_path → load mc.hf_path = none →
      load_one fsx load mc = .error ()) ∧
    (∀ l : List (String × SupportedModel), ∀ mid : String, (mid, mc) ∈ l →
      load_one fsx load mc = .error () → lifespan_load fsx load l = .error ()) := by
  refine ⟨?_, ?_, ?_, ?_, ?_, ?_⟩
  · constructor
    · intro hl
      unfold get_tokenizer_path at hl
      by_cases hb : (fsx mc.local_path &&
          (fsx (mc.local_path ++ "/tokenizer.json") || fsx (mc.local_path ++ "/vocab.json"))) = true
      · rcases Bool.and_eq_true_iff.mp hb with ⟨_, hor⟩
        rcases Bool.or_eq_true_iff.mp hor with h | h
        · exact Or.inl h
        · exact Or.inr h
      · rw [if_neg hb] at hl
        exact absurd hl.symm hne
    · intro har
      unfold get_tokenizer_path
      have hdir : fsx mc.local_path = true := by
        rcases har with h | h
        · exact hwf1 h
        · exact hwf2 h
      have hor : (fsx (mc.local_path ++ "/tokenizer.json") ||
          fsx (mc.local_path ++ "/vocab.json")) = true := by
        rcases har with h | h
        · exact Bool.or_eq_true_iff.mpr (Or.inl h)
        · exact Bool.or_eq_true_iff.mpr (Or.inr h)
      rw [if_pos (Bool.and_eq_true_iff.mpr ⟨hdir, hor⟩)]
  · intro t hload
    simp [load_one, hload]
  · intro hres hlocal t hhf
    simp [load_one, hres, hlocal, hhf]
  · intro hres hlocal hhf
    simp [load_one, hres, hlocal, hhf]
  · intro hres hhf
    simp [load_one, hres, hhf, Ne.symm hne]
  · intro l mid hm hf
    exact lifespan_error_of_member fsx load l mid mc hm hf

/-- A concrete existence predicate for the C4 witness: the local directory
and its tokenizer.json are present. -/
def fsxW : String → Bool := fun p =>
  p = "/app/models/m" || p = "/app/models/m/tokenizer.json"

/-- A concrete loader for the C4 witness: the local path raises, the
huggingface path loads. -/
def loadW : String → Option Tok := fun p =>
  if p = "hf/m" then some tokensW else none

/-- The supported-model record for the C4 witness. -/
def smW : SupportedModel := ⟨"hf/m", "/app/models/m"⟩

/-- Claim C4, witness: the concrete model resolves to its local path, the
local load raises, and the single huggingface retry succeeds, via the
theorem with all hypotheses discharged at this concrete input. -/
theorem local_first_resolution_witness :
    get_tokenizer_path fsxW smW = "/app/models/m" ∧
    load_one fsxW loadW smW = .ok tokensW := by
  have h := local_first_resolution_and_fallback fsxW loadW smW
    (fun _ => by decide) (fun _ => by decide) (by decide)
  have hres : get_tokenizer_path fsxW smW = smW.local_path :=
    h.1.mpr (Or.inl (by decide))
  refine ⟨hres, ?_⟩
  exact h.2.2.1 hres rfl tokensW rfl

/- ========== Provisioning: scripts/download_missing_models.py ============= -/

/-- A filesystem path, as its list of components. -/
abbrev FPath := List String

/-- Filesystem model: the list of existing file paths (directories are
implicit; mkdir has no observable effect here). -/
abbrev FS := List FPath

/-- Existence of a file. -/
def pathExists (fs : FS) (p : FPath) : Bool := fs.contains p

/-- One record of the models list of config/models.json. Absent keys are
none; Python falsiness makes the empty string behave like an absent value. -/
structure ModelConfig where
  id : Option String
  name : Option String
  huggingface_model : Option String
  output_dir : Option String
  check_files : Option (List String)
  deriving DecidableEq, Repr

/-- Python falsiness of an optional string: None or empty. -/
def falsy : Option String → Bool
  | none => true
  | some s => s.isEmpty

/-- The parsed registry file: the models list and the config object's
conversion_script entry. -/
structure JsonConfig where
  models : List ModelConfig
  conversion_script : Option String
  deriving DecidableEq, Repr

/-- The three conditions load_model_config can meet: the file is absent, it
exists but is malformed JSON, or it parses to a configuration. -/
inductive ConfigSource where
  | absent
  | malformed
  | wellFormed (cfg : JsonConfig)

/-- load_model_config: an absent file yields the default empty configuration
(a warning, not an error); a malformed file calls sys.exit(1), modelled as
an error that aborts the run. -/
def load_model_config : ConfigSource → Except Unit JsonConfig
  | .absent => .ok ⟨[], none⟩
  | .malformed => .error ()
  | .wellFormed cfg => .ok cfg

/-- The default for an absent check_files key. -/
def checkFilesOf (mc : ModelConfig) : List String :=
  mc.check_files.getD ["model.onnx"]

/-- check_model_exists: only the primary file, the first of check_files,
decides presence. The source indexes check_files[0]; the loader default and
the registry invariant keep that list non-empty, so headD stands in for the
index. -/
def check_model_exists (fs : FS) (model_path : FPath) (check_files : List String) : Bool :=
  pathExists fs (model_path ++ [check_files.headD ""])

/-- The external conversion subprocess (run_conversion_script with the
entry's configuration): it may change the filesystem and reports success as
a boolean, exactly the thin boundary the orchestrator sees. -/
abbrev Converter := ModelConfig → FS → Bool × FS

/-- The record the orchestrator queues for a missing model (the dict
appended to missing_models). -/
structure MissingInfo where
  id : Option String
  name : String
  output_dir : FPath
  check_files : List String
  original_config : ModelConfig
  deriving DecidableEq, Repr

/-- The first phase's decision for one registry entry: none when the entry
lacks a (truthy) name or output_dir and is skipped with a warning; inl name
when its primary check file exists at the canonical target and force mode
is off; inr otherwise (queued for conversion). -/
def classifyEntry (force_download : Bool) (base : FPath) (fs : FS)
    (mc : ModelConfig) : Option (String ⊕ MissingInfo) :=
  if falsy mc.name || falsy mc.output_dir then none
  else if check_model_exists fs (base ++ [mc.output_dir.getD ""]) (checkFilesOf mc)
        && !force_download then
    some (.inl (mc.name.getD ""))
  else
    some (.inr ⟨mc.id, mc.name.getD "", base ++ [mc.output_dir.getD ""],
      checkFilesOf mc, mc⟩)

/-- The first phase over the whole models list, in registry order:
existing_models (their names) and missing_models. -/
def classify (force_download : Bool) (base : FPath) (fs : FS) :
    List ModelConfig → List String × List MissingInfo
  | [] => ([], [])
  | mc :: rest =>
      let r := classify force_download base fs rest
      match classifyEntry force_download base fs mc with
      | none => r
      | some (.inl n) => (n :: r.1, r.2)
      | some (.inr mi) => (r.1, mi :: r.2)

/-- Names of the plain files directly inside a directory, as glob star over
is_file sees them. -/
def filesIn (fs : FS) (dir : FPath) : List String :=
  fs.filterMap (fun p =>
    if p.take dir.length = dir ∧ p.length = dir.length + 1 then p.getLast? else none)

/-- shutil.copy2 of every direct file of src into dst. -/
def copyFiles (fs : FS) (src dst : FPath) : FS :=
  fs ++ (filesIn fs src).map (fun n => dst ++ [n])

/-- The canonical target's primary check file for a queued entry. -/
def primaryPath (mi : MissingInfo) : FPath :=
  mi.output_dir ++ [mi.check_files.headD ""]

/-- The workspace directory the conversion may have written to instead
(Path("models") / output_dir of the original configuration). -/
def workspaceDir (mi : MissingInfo) : FPath :=
  ["models", mi.original_config.output_dir.getD ""]

/-- The primary check file at the workspace location. -/
def workspaceCheck (mi : MissingInfo) : FPath :=
  workspaceDir mi ++ [mi.check_files.headD ""]

/-- The defensive relocation after a claimed-successful conversion: when the
primary file is at the workspace location and not at the canonical target,
copy every direct file of the workspace directory to the target. -/
def relocate (fs1 : FS) (mi : MissingInfo) : FS :=
  if pathExists fs1 (workspaceCheck mi) && !pathExists fs1 (primaryPath mi) then
    copyFiles fs1 (workspaceDir mi) mi.output_dir
  else fs1

/-- The second phase's body for one queued entry: invoke the conversion, on
success relocate if needed and verify the primary check file; the boolean is
whether the entry counts as a successful download. -/
def processMissing (conv : Converter) (fs : FS) (mi : MissingInfo) : Bool × FS :=
  match conv mi.original_config fs with
  | (false, fs1) => (false, fs1)
  | (true, fs1) => (pathExists (relocate fs1 mi) (primaryPath mi), relocate fs1 mi)

/-- The per-run counters of the download loop. -/
structure DownloadStats where
  invocations : Nat
  success_count : Nat
  failed_models : List String
  fs : FS
  deriving DecidableEq, Repr

/-- The second phase over the queued entries, in order, threading the
filesystem: one conversion invocation per entry, failures recorded per
entry without halting the loop. -/
def runDownloads (conv : Converter) : FS → List MissingInfo → DownloadStats
  | fs, [] => ⟨0, 0, [], fs⟩
  | fs, mi :: rest =>
      let r := processMissing conv fs mi
      let s := runDownloads conv r.2 rest
      ⟨s.invocations + 1, (if r.1 then 1 else 0) + s.success_count,
        (if r.1 then [] else [mi.name]) ++ s.failed_models, s.fs⟩

/-- The observables of one discover_and_download_models run: the lists and
counters the source accumulates, its boolean result, and the final
filesystem. -/
structure RunResult where
  existing_models : List String
  invocations : Nat
  success_count : Nat
  failed_models : List String
  ok : Bool
  fs : FS
  deriving DecidableEq, Repr

/-- The conversion script named by the config object, with its default. -/
def scriptName (cfg : JsonConfig) : String :=
  cfg.conversion_script.getD "convert_to_onnx.py"

/-- discover_and_download_models after its configuration is loaded:
an empty models list is a successful no-op; a missing conversion script
fails the run before any entry is processed; otherwise classify the entries
against the filesystem, succeed at once when nothing is missing, and run
the download loop otherwise. scriptFound abstracts the existence check of
the script file in the scripts directory. -/
def discoverCore (cfg : JsonConfig) (force_download : Bool) (base : FPath)
    (scriptFound : String → Bool) (conv : Converter) (fs : FS) : RunResult :=
  if cfg.models.isEmpty then ⟨[], 0, 0, [], true, fs⟩
  else if !scriptFound (scriptName cfg) then ⟨[], 0, 0, [], false, fs⟩
  else if (classify force_download base fs cfg.models).2.isEmpty then
    ⟨(classify force_download base fs cfg.models).1, 0, 0, [], true, fs⟩
  else
    ⟨(classify force_download base fs cfg.models).1,
      (runDownloads conv fs (classify force_download base fs cfg.models).2).invocations,
      (runDownloads conv fs (classify force_download base fs cfg.models).2).success_count,
      (runDownloads conv fs (classify force_download base fs cfg.models).2).failed_models,
      (runDownloads conv fs (classify force_download base fs cfg.models).2).failed_models.isEmpty,
      (runDownloads conv fs (classify force_download base fs cfg.models).2).fs⟩

/-- discover_and_download_models from a configuration source: a malformed
source aborts via sys.exit(1) inside load_model_config. -/
def discover_and_download_models (src : ConfigSource) (force_download : Bool)
    (base : FPath) (scriptFound : String → Bool) (conv : Converter) (fs : FS) :
    Except Unit RunResult :=
  match load_model_config src with
  | .error _ => .error ()
  | .ok cfg => .ok (discoverCore cfg force_download base scriptFound conv fs)

/-- The count check_missing_models_only performs: entries with a truthy
output_dir whose primary check file is absent. -/
def countMissing (cfg : JsonConfig) (base : FPath) (fs : FS) : Nat :=
  (cfg.models.filter (fun mc =>
    !falsy mc.output_dir &&
      !check_model_exists fs (base ++ [mc.output_dir.getD ""]) (checkFilesOf mc))).length

/-- check_missing_models_only: loads the configuration (malformed is fatal)
and counts, performing no conversion and no write. -/
def check_missing_models_only (src : ConfigSource) (base : FPath) (fs : FS) :
    Except Unit Nat :=
  match load_model_config src with
  | .error _ => .error ()
  | .ok cfg => .ok (countMissing cfg base fs)

/-- The parsed CLI flags of main. -/
structure Args where
  force : Bool
  models_dir : FPath
  check_only : Bool

/-- main: check-only mode reports and exits 0 (after a successful
configuration load) without touching the filesystem; otherwise force mode is
the flag or the DOWNLOAD_MODELS environment variable, and the exit code is
0 exactly when discover_and_download_models returns success. The pair is
(exit code, final filesystem). -/
def mainRun (args : Args) (envForce : Bool) (src : ConfigSource)
    (scriptFound : String → Bool) (conv : Converter) (fs : FS) : Nat × FS :=
  if args.check_only then
    match check_missing_models_only src args.models_dir fs with
    | .error _ => (1, fs)
    | .ok _ => (0, fs)
  else
    match discover_and_download_models src (args.force || envForce) args.models_dir
        scriptFound conv fs with
    | .error _ => (1, fs)
    | .ok r => ((if r.ok then 0 else 1), r.fs)

/-- Helper: every queued entry costs exactly one conversion invocation,
whatever the outcomes of earlier entries. -/
theorem runDownloads_invocations (conv : Converter) :
    ∀ (l : List MissingInfo) (fs : FS),
      (runDownloads conv fs l).invocations = l.length := by
  intro l
  induction l with
  | nil => intro fs; rfl
  | cons mi rest ih =>
      intro fs
      simp [runDownloads, ih]

/-- Helper: when the conversion script is present, the run's boolean result
is exactly the emptiness of the failed list. -/
theorem discoverCore_ok_iff (cfg : JsonConfig) (force_download : Bool) (base : FPath)
    (scriptFound : String → Bool) (conv : Converter) (fs : FS)
    (hscript : scriptFound (scriptName cfg) = true) :
    ((discoverCore cfg force_download base scriptFound conv fs).ok = true ↔
      (discoverCore cfg force_download base scriptFound conv fs).failed_models = []) := by
  unfold discoverCore
  split
  · simp
  split
  · rename_i h
    rw [hscript] at h
    simp at h
  split
  · simp
  · simp [List.isEmpty_iff]

/-- Claim C9: an absent configuration source yields the default empty
registry and a successful no-op provisioning run; a malformed source is
fatal for the run (and for check-only mode). -/
theorem absent_config_noop_malformed_fatal
    (force_download : Bool) (base : FPath) (scriptFound : String → Bool)
    (conv : Converter) (fs : FS) :
    load_model_config .absent = .ok ⟨[], none⟩ ∧
    discover_and_download_models .absent force_download base scriptFound conv fs
      = .ok ⟨[], 0, 0, [], true, fs⟩ ∧
    load_model_config .malformed = .error () ∧
    discover_and_download_models .malformed force_download base scriptFound conv fs
      = .error () ∧
    check_missing_models_only .malformed base fs = .error () :=
  ⟨rfl, rfl, rfl, rfl, rfl⟩

/-- Claim C9, witness: the absent-source no-op at a concrete input, via the
theorem. -/
theorem absent_config_noop_witness :
    discover_and_download_models .absent false ["/models"] (fun _ => true)
      (fun _ fs2 => (true, fs2)) [] = .ok ⟨[], 0, 0, [], true, []⟩ :=
  (absent_config_noop_malformed_fatal false ["/models"] (fun _ => true)
    (fun _ fs2 => (true, fs2)) []).2.1

/-- Helper: without force mode, a registry whose entries are all complete
and all have their primary check file at the canonical target classifies
every entry as existing and queues nothing. -/
theorem classify_all_present (base : FPath) (fs : FS) (l : List ModelConfig)
    (h : ∀ mc ∈ l, falsy mc.name = false ∧ falsy mc.output_dir = false ∧
      check_model_exists fs (base ++ [mc.output_dir.getD ""]) (checkFilesOf mc) = true) :
    classify false base fs l = (l.map (fun mc => mc.name.getD ""), []) := by
  induction l with
  | nil => rfl
  | cons mc rest ih =>
      have hmc := h mc (by simp)
      have hrest := ih (fun x hx => h x (by simp [hx]))
      simp [classify, hrest, classifyEntry, hmc.1, hmc.2.1, hmc.2.2]

/-- Claim C3: on a registry whose entries all have their primary check file
at the canonical target, a run without force performs zero conversion
invocations, reports every entry as already existing with success and an
unchanged filesystem, a second run returns the identical result, and the
result does not depend on the converter at all. -/
theorem orchestrator_idempotent_when_provisioned
    (cfg : JsonConfig) (base : FPath) (scriptFound : String → Bool)
    (conv : Converter) (fs : FS)
    (hprov : ∀ mc ∈ cfg.models, falsy mc.name = false ∧ falsy mc.output_dir = false ∧
      check_model_exists fs (base ++ [mc.output_dir.getD ""]) (checkFilesOf mc) = true)
    (hscript : scriptFound (scriptName cfg) = true) :
    discoverCore cfg false base scriptFound conv fs
      = ⟨cfg.models.map (fun mc => mc.name.getD ""), 0, 0, [], true, fs⟩ ∧
    discoverCore cfg false base scriptFound conv
        ((discoverCore cfg false base scriptFound conv fs).fs)
      = discoverCore cfg false base scriptFound conv fs ∧
    ∀ conv2 : Converter, discoverCore cfg false base scriptFound conv2 fs
      = discoverCore cfg false base scriptFound conv fs := by
  have key : ∀ cv : Converter, discoverCore cfg false base scriptFound cv fs
      = ⟨cfg.models.map (fun mc => mc.name.getD ""), 0, 0, [], true, fs⟩ := by
    intro cv
    have hc := classify_all_present base fs cfg.models hprov
    cases hm : cfg.models.isEmpty with
    | true =>
        have hnil : cfg.models = [] := List.isEmpty_iff.mp hm
        simp [discoverCore, hnil]
    | false => simp [discoverCore, hm, hscript, hc]
  refine ⟨key conv, ?_, fun conv2 => (key conv2).trans (key conv).symm⟩
  rw [key conv]
  exact key conv

/-- The registry entry, registry and filesystem of the C3 witness: one
complete entry whose primary check file is at the canonical target. -/
def mcC3 : ModelConfig :=
  ⟨some "m", some "M", some "hf/m", some "m-onnx", some ["model.onnx"]⟩

/-- The registry of the C3 witness. -/
def cfgC3 : JsonConfig := ⟨[mcC3], none⟩

/-- The provisioned filesystem of the C3 witness. -/
def fsC3 : FS := [["/models", "m-onnx", "model.onnx"]]

/-- A converter for witnesses that succeeds without writing. -/
def convNopC3 : Converter := fun _ fs2 => (true, fs2)

/-- Claim C3, witness: the provisioned one-entry registry at a concrete
input, via the theorem with its hypotheses discharged by computation. -/
theorem orchestrator_idempotent_witness :
    discoverCore cfgC3 false ["/models"] (fun _ => true) convNopC3 fsC3
      = ⟨["M"], 0, 0, [], true, fsC3⟩ ∧
    discoverCore cfgC3 false ["/models"] (fun _ => true) convNopC3
        ((discoverCore cfgC3 false ["/models"] (fun _ => true) convNopC3 fsC3).fs)
      = discoverCore cfgC3 false ["/models"] (fun _ => true) convNopC3 fsC3 := by
  have h := orchestrator_idempotent_when_provisioned cfgC3 ["/models"] (fun _ => true)
    convNopC3 fsC3 (by decide) rfl
  exact ⟨h.1, h.2.1⟩

/-- The queued record the orchestrator builds for a complete entry. -/
def toMissing (base : FPath) (mc : ModelConfig) : MissingInfo :=
  ⟨mc.id, mc.name.getD "", base ++ [mc.output_dir.getD ""], checkFilesOf mc, mc⟩

/-- Helper: with force mode on, classification queues every complete entry
and reports none as existing, regardless of the filesystem. -/
theorem classify_force (base : FPath) (fs : FS) (l : List ModelConfig)
    (hwf : ∀ mc ∈ l, falsy mc.name = false ∧ falsy mc.output_dir = false) :
    classify true base fs l = ([], l.map (toMissing base)) := by
  induction l with
  | nil => rfl
  | cons mc rest ih =>
      have hmc := hwf mc (by simp)
      have hrest := ih (fun x hx => hwf x (by simp [hx]))
      simp [classify, hrest, classifyEntry, hmc.1, hmc.2, toMissing]

/-- Claim C6: with force mode set, every complete registry entry is queued
for conversion whatever the filesystem holds, no entry is classified as
already existing, and the run performs one conversion invocation per entry. -/
theorem force_reinvokes_all_entries
    (cfg : JsonConfig) (base : FPath) (scriptFound : String → Bool)
    (conv : Converter) (fs : FS)
    (hwf : ∀ mc ∈ cfg.models, falsy mc.name = false ∧ falsy mc.output_dir = false)
    (hne : cfg.models ≠ [])
    (hscript : scriptFound (scriptName cfg) = true) :
    (classify true base fs cfg.models).2 = cfg.models.map (toMissing base) ∧
    (discoverCore cfg true base scriptFound conv fs).existing_models = [] ∧
    (discoverCore cfg true base scriptFound conv fs).invocations = cfg.models.length := by
  have hc := classify_force base fs cfg.models hwf
  have hm : cfg.models.isEmpty = false := by
    simp [List.isEmpty_iff, hne]
  have hmap : (cfg.models.map (toMissing base)).isEmpty = false := by
    simp [List.isEmpty_iff, hne]
  refine ⟨congrArg Prod.snd hc, ?_, ?_⟩
  · simp [discoverCore, hm, hscript, hc, hmap]
  · simp [discoverCore, hm, hscript, hc, hmap, runDownloads_invocations]

/-- The complete entry of the C6 witness, with its artifacts present. -/
def mcC6 : ModelConfig :=
  ⟨some "m", some "M", some "hf/m", some "m-onnx", some ["model.onnx"]⟩

/-- The registry of the C6 witness. -/
def cfgC6 : JsonConfig := ⟨[mcC6], none⟩

/-- The provisioned filesystem of the C6 witness. -/
def fsC6 : FS := [["/models", "m-onnx", "model.onnx"]]

/-- The converter of the C6 witness. -/
def convNopC6 : Converter := fun _ fs2 => (true, fs2)

/-- Claim C6, witness: even with the artifacts present, force mode queues
the entry and invokes one conversion, via the theorem. -/
theorem force_reinvokes_witness :
    (discoverCore cfgC6 true ["/models"] (fun _ => true) convNopC6 fsC6).existing_models
      = [] ∧
    (discoverCore cfgC6 true ["/models"] (fun _ => true) convNopC6 fsC6).invocations = 1 := by
  have h := force_reinvokes_all_entries cfgC6 ["/models"] (fun _ => true) convNopC6 fsC6
    (by decide) (by decide) rfl
  exact ⟨h.2.1, h.2.2⟩

/-- Claim C5: the download loop never halts early, so every queued entry is
invoked whatever earlier entries did; when the registry parses and the
conversion script is present, the process exits 0 exactly when no entry
failed; and in check-only mode the exit code is 0 and the filesystem is
untouched (no downloads happen). -/
theorem failure_isolation_and_exit_code
    (cfg : JsonConfig) (args : Args) (envForce : Bool) (scriptFound : String → Bool)
    (conv : Converter) (fs : FS)
    (hscript : scriptFound (scriptName cfg) = true) :
    ((discoverCore cfg (args.force || envForce) args.models_dir scriptFound conv fs).invocations
      = (classify (args.force || envForce) args.models_dir fs cfg.models).2.length) ∧
    (args.check_only = false →
      ((mainRun args envForce (.wellFormed cfg) scriptFound conv fs).1 = 0 ↔
        (discoverCore cfg (args.force || envForce) args.models_dir
          scriptFound conv fs).failed_models = [])) ∧
    (args.check_only = true →
      mainRun args envForce (.wellFormed cfg) scriptFound conv fs = (0, fs)) := by
  have hok := discoverCore_ok_iff cfg (args.force || envForce) args.models_dir
    scriptFound conv fs hscript
  refine ⟨?_, ?_, ?_⟩
  · unfold discoverCore
    split
    · rename_i h
      have hnil : cfg.models = [] := List.isEmpty_iff.mp h
      simp [hnil, classify]
    split
    · rename_i h
      rw [hscript] at h
      simp at h
    split
    · rename_i h
      simp [List.isEmpty_iff.mp h]
    · simp [runDownloads_invocations]
  · intro hco
    unfold mainRun
    rw [hco]
    simp only [Bool.false_eq_true, if_false]
    cases hr : (discoverCore cfg (args.force || envForce) args.models_dir
        scriptFound conv fs).ok with
    | true =>
        simp [discover_and_download_models, load_model_config, hr]
        exact hok.mp hr
    | false =>
        simp [discover_and_download_models, load_model_config, hr]
        intro hfe
        have hcontra := hok.mpr hfe
        rw [hr] at hcontra
        exact absurd hcontra (by simp)
  · intro hco
    unfold mainRun
    rw [hco]
    simp [check_missing_models_only, load_model_config]

/-- Entry A of the C5 witness (its conversion will fail). -/
def mcC5A : ModelConfig :=
  ⟨some "a", some "A", some "hf/a", some "a-dir", some ["model.onnx"]⟩

/-- Entry B of the C5 witness (its conversion will succeed). -/
def mcC5B : ModelConfig :=
  ⟨some "b", some "B", some "hf/b", some "b-dir", some ["model.onnx"]⟩

/-- The two-entry registry of the C5 witness. -/
def cfgC5 : JsonConfig := ⟨[mcC5A, mcC5B], none⟩

/-- The converter of the C5 witness: fails for entry a, succeeds for entry b
by writing b's primary check file to the canonical target. -/
def convC5 : Converter := fun mc fs2 =>
  if mc.id = some "a" then (false, fs2)
  else (true, fs2 ++ [["/models", "b-dir", "model.onnx"]])

/-- Claim C5, witness: A's failure is recorded while B's success is
preserved, both entries are invoked, and the exit code reflects the
failure, via the theorem at this concrete run. -/
theorem failure_isolation_witness :
    ((mainRun ⟨false, ["/models"], false⟩ false (.wellFormed cfgC5) (fun _ => true)
        convC5 []).1 = 0 ↔
      (discoverCore cfgC5 false ["/models"] (fun _ => true) convC5 []).failed_models = []) ∧
    (discoverCore cfgC5 false ["/models"] (fun _ => true) convC5 []).failed_models = ["A"] ∧
    (discoverCore cfgC5 false ["/models"] (fun _ => true) convC5 []).success_count = 1 ∧
    (discoverCore cfgC5 false ["/models"] (fun _ => true) convC5 []).invocations = 2 ∧
    (mainRun ⟨false, ["/models"], false⟩ false (.wellFormed cfgC5) (fun _ => true)
      convC5 []).1 = 1 := by
  have h := failure_isolation_and_exit_code cfgC5 ⟨false, ["/models"], false⟩ false
    (fun _ => true) convC5 [] rfl
  refine ⟨?_, by decide, by decide, by decide, by decide⟩
  have h2 := h.2.1 rfl
  simpa using h2

/-- Helper: a skipped entry drops out of classification wherever it sits in
the registry. -/
theorem classify_skip_middle (force_download : Bool) (base : FPath) (fs : FS)
    (pre post : List ModelConfig) (bad : ModelConfig)
    (hbad : classifyEntry force_download base fs bad = none) :
    classify force_download base fs (pre ++ bad :: post)
      = classify force_download base fs (pre ++ post) := by
  induction pre with
  | nil => simp [classify, hbad]
  | cons mc rest ih => simp [classify, ih]

/-- Claim C10: an entry lacking a (truthy) name or output_dir is skipped
with a warning: it is classified neither as existing nor as missing, and
with the conversion script present the whole run behaves exactly as if the
entry were absent from the registry, so it triggers no conversion, gets no
outcome, and cannot affect the run's success report. -/
theorem incomplete_entry_skipped_no_effect
    (pre post : List ModelConfig) (bad : ModelConfig) (cs : Option String)
    (force_download : Bool) (base : FPath) (scriptFound : String → Bool)
    (conv : Converter) (fs : FS)
    (hbad : falsy bad.name = true ∨ falsy bad.output_dir = true)
    (hscript : scriptFound (scriptName ⟨pre ++ bad :: post, cs⟩) = true) :
    classifyEntry force_download base fs bad = none ∧
    discoverCore ⟨pre ++ bad :: post, cs⟩ force_download base scriptFound conv fs
      = discoverCore ⟨pre ++ post, cs⟩ force_download base scriptFound conv fs := by
  have hskip : classifyEntry force_download base fs bad = none := by
    rcases hbad with h | h
    · simp [classifyEntry, h]
    · simp [classifyEntry, h]
  refine ⟨hskip, ?_⟩
  have hcl := classify_skip_middle force_download base fs pre post bad hskip
  have hscript2 : scriptFound (scriptName ⟨pre ++ post, cs⟩) = true := hscript
  by_cases hpp : pre ++ post = []
  · rcases List.append_eq_nil.mp hpp with ⟨hp, hq⟩
    subst hp
    subst hq
    simp only [List.nil_append] at hcl hscript ⊢
    simp [discoverCore, hcl, classify, hskip, hscript]
  · have h1 : ((⟨pre ++ bad :: post, cs⟩ : JsonConfig)).models.isEmpty = false := by
      simp
    have h2 : ((⟨pre ++ post, cs⟩ : JsonConfig)).models.isEmpty = false := by
      simp [List.isEmpty_iff, hpp]
    simp [discoverCore, h1, h2, hscript, hscript2, hcl]

/-- The incomplete entry of the C10 witness: it has no name. -/
def badC10 : ModelConfig := ⟨some "x", none, some "hf/x", some "x-onnx", none⟩

/-- The complete companion entry of the C10 witness. -/
def goodC10 : ModelConfig :=
  ⟨some "g", some "G", some "hf/g", some "g-dir", some ["model.onnx"]⟩

/-- The converter of the C10 witness. -/
def convNopC10 : Converter := fun _ fs2 => (true, fs2)

/-- Claim C10, witness: the run over the registry with the incomplete entry
equals the run over the registry without it, via the theorem. -/
theorem incomplete_entry_skipped_witness :
    discoverCore ⟨[goodC10, badC10], none⟩ false ["/models"] (fun _ => true)
        convNopC10 []
      = discoverCore ⟨[goodC10], none⟩ false ["/models"] (fun _ => true)
        convNopC10 [] := by
  have h := incomplete_entry_skipped_no_effect [goodC10] [] badC10 none false
    ["/models"] (fun _ => true) convNopC10 [] (Or.inl rfl) rfl
  exact h.2

/-- Helper: copying the direct files of src into dst carries a direct file
of src over to dst. -/
theorem copyFiles_preserves (fs : FS) (src dst : FPath) (c : String)
    (h : pathExists fs (src ++ [c]) = true) :
    pathExists (copyFiles fs src dst) (dst ++ [c]) = true := by
  have hmem : (src ++ [c]) ∈ fs := List.elem_iff.mp h
  have hc : c ∈ filesIn fs src := by
    apply List.mem_filterMap.mpr
    refine ⟨src ++ [c], hmem, ?_⟩
    rw [if_pos ⟨List.take_left src [c], by simp⟩]
    exact List.getLast?_concat src
  have hd : (dst ++ [c]) ∈ copyFiles fs src dst := by
    unfold copyFiles
    exact List.mem_append.mpr (Or.inr (List.mem_map.mpr ⟨c, hc, rfl⟩))
  exact List.elem_iff.mpr hd

/-- Claim C2 (amended): for an entry whose conversion succeeds with the
primary check file at the workspace location and not at the canonical
target, the orchestrator copies the workspace files to the target and the
re-verification finds the primary file there, so the final state has the
artifacts at the canonical target; the entry is recorded as a plain
success, the same outcome a direct download gets. -/
theorem relocation_copies_and_succeeds
    (conv : Converter) (fs fs1 : FS) (mi : MissingInfo)
    (hconv : conv mi.original_config fs = (true, fs1))
    (hws : pathExists fs1 (workspaceCheck mi) = true)
    (hnot : pathExists fs1 (primaryPath mi) = false) :
    processMissing conv fs mi
      = (true, copyFiles fs1 (workspaceDir mi) mi.output_dir) ∧
    pathExists (copyFiles fs1 (workspaceDir mi) mi.output_dir) (primaryPath mi)
      = true := by
  have hcopy : pathExists (copyFiles fs1 (workspaceDir mi) mi.output_dir)
      (primaryPath mi) = true := by
    have := copyFiles_preserves fs1 (workspaceDir mi) mi.output_dir
      (mi.check_files.headD "") hws
    exact this
  have hrel : relocate fs1 mi = copyFiles fs1 (workspaceDir mi) mi.output_dir := by
    simp [relocate, hws, hnot]
  have hpm : processMissing conv fs mi
      = (pathExists (relocate fs1 mi) (primaryPath mi), relocate fs1 mi) := by
    unfold processMissing
    rw [hconv]
  refine ⟨?_, hcopy⟩
  rw [hpm, hrel, hcopy]

/-- The registry entry of the C2 scenario. -/
def mcC2 : ModelConfig :=
  ⟨some "m", some "M", some "hf/m", some "m-onnx", some ["model.onnx"]⟩

/-- The queued record the orchestrator builds for mcC2 under base /models. -/
def miC2 : MissingInfo :=
  ⟨some "m", "M", ["/models", "m-onnx"], ["model.onnx"], mcC2⟩

/-- The one-entry registry of the C2 scenario. -/
def cfgC2 : JsonConfig := ⟨[mcC2], none⟩

/-- A converter that writes the artifact only to the workspace location
(the relocation scenario). -/
def convWsC2 : Converter := fun _ fs2 =>
  (true, fs2 ++ [["models", "m-onnx", "model.onnx"]])

/-- A converter that writes the artifact directly to the canonical target
(the plain download scenario). -/
def convDirectC2 : Converter := fun _ fs2 =>
  (true, fs2 ++ [["/models", "m-onnx", "model.onnx"]])

/-- Claim C2, counterexample to the claim as stated: in a concrete
relocation scenario (artifact at the workspace location, absent from the
canonical target) the run report is identical, field for field, to the
report of the plain direct-download scenario, so the code records no
distinct Moved outcome among AlreadyPresent, Downloaded, Moved and Failed. -/
theorem relocation_outcome_not_distinct :
    pathExists ((convWsC2 mcC2 []).2) (workspaceCheck miC2) = true ∧
    pathExists ((convWsC2 mcC2 []).2) (primaryPath miC2) = false ∧
    (discoverCore cfgC2 false ["/models"] (fun _ => true) convWsC2 []).existing_models
      = (discoverCore cfgC2 false ["/models"] (fun _ => true) convDirectC2 []).existing_models ∧
    (discoverCore cfgC2 false ["/models"] (fun _ => true) convWsC2 []).success_count
      = (discoverCore cfgC2 false ["/models"] (fun _ => true) convDirectC2 []).success_count ∧
    (discoverCore cfgC2 false ["/models"] (fun _ => true) convWsC2 []).failed_models
      = (discoverCore cfgC2 false ["/models"] (fun _ => true) convDirectC2 []).failed_models ∧
    (discoverCore cfgC2 false ["/models"] (fun _ => true) convWsC2 []).ok
      = (discoverCore cfgC2 false ["/models"] (fun _ => true) convDirectC2 []).ok ∧
    (discoverCore cfgC2 false ["/models"] (fun _ => true) convWsC2 []).success_count = 1 ∧
    pathExists (discoverCore cfgC2 false ["/models"] (fun _ => true) convWsC2 []).fs
      (primaryPath miC2) = true := by
  decide

/-- Claim C2, witness: the concrete relocation scenario, via the amended
theorem with its hypotheses discharged by computation. -/
theorem relocation_copies_witness :
    processMissing convWsC2 [] miC2
      = (true, copyFiles [["models", "m-onnx", "model.onnx"]] (workspaceDir miC2)
          miC2.output_dir) ∧
    pathExists (copyFiles [["models", "m-onnx", "model.onnx"]] (workspaceDir miC2)
        miC2.output_dir) (primaryPath miC2) = true := by
  have h := relocation_copies_and_succeeds convWsC2 []
    [["models", "m-onnx", "model.onnx"]] miC2 rfl (by decide) (by decide)
  exact h

end AndyInference
